import Mathlib

/-!
Shallow embedding of src/run_task.py.

The program is a Terraform Cloud run-task webhook service with three parts:

* `run_function` — the Flask HTTP handler: on a probe event
  (task_result_enforcement_level == "test") it returns 200 without spawning
  a worker; otherwise it spawns a `process_request` worker thread and
  returns 200 immediately.
* `process_request` — authenticates the event by comparing the request HMAC
  header against a keyed SHA-512 digest of the raw body, then walks the
  eligibility checks (callback url present, stage == post_plan, run_id
  present, run fetched, source == tfe-run-trigger, workspace auto-apply)
  and reports a verdict via a PATCH to the callback url; in the positive
  case it pushes the run id onto the shared queue.
* `process_queue` — the scheduler loop: pops a run id, sleeps 5 seconds if
  it equals the previously handled id, fetches the run, and either drops it
  (fetch error, planned_and_finished, apply 202, apply unexpected code) or
  re-enqueues it at the tail (not confirmable, apply 409).

Network calls are modelled by environment records of oracle functions; the
HMAC-SHA512 digest is modelled by an abstract digest function in the
environment (only equality of digests matters to the control flow).
Observable behaviour (print statements, PATCH callbacks, queue pushes,
scheduler events) is returned explicitly so that trace properties can be
stated.
-/

namespace RunTaskAutoApply

/-- Attributes of a run as returned by GET /runs/run_id: the fields of the
JSON document that src/run_task.py reads (data.attributes.status,
data.attributes.actions.is-confirmable, data.attributes.source,
data.relationships.workspace.data.id). -/
structure RunAttrs where
  status : String
  isConfirmable : Bool
  source : String
  workspaceId : String
deriving DecidableEq

/-- Result of the GET run details call: a 200 response with parsed
attributes, or a non-200 response with its text. -/
inductive FetchResp where
  | ok (attrs : RunAttrs)
  | err (text : String)
deriving DecidableEq

/-- Result of the GET workspace call: a 200 response carrying the
data.attributes.auto-apply flag, or a non-200 response with its text. -/
inductive WorkspaceResp where
  | ok (autoApply : Bool)
  | err (text : String)
deriving DecidableEq

/-- The inbound run-task event body, with the fields src/run_task.py reads.
Fields read with dict.get are Options (absent key gives none). -/
structure Event where
  access_token : String
  task_result_callback_url : Option String
  stage : Option String
  run_id : Option String
  task_result_enforcement_level : Option String
deriving DecidableEq

/-- Verdict payload placed in data.attributes of the task-results PATCH
body. -/
structure TaskResult where
  status : String
  message : String
deriving DecidableEq

/-- One outgoing PATCH to the task result callback: the url passed to
requests.patch (body.get can give None, hence Option), the bearer token
from the event, and the verdict. -/
structure PatchCall where
  url : Option String
  token : String
  result : TaskResult
deriving DecidableEq

/-- Observable output of one process_request call: the print statements,
the PATCH callbacks issued, and the run ids pushed onto run_ids_queue. -/
structure ProcOutput where
  logs : List String
  patches : List PatchCall
  queuePushes : List String
deriving DecidableEq

/-- Environment of process_request: the HMAC secret, the keyed digest
function (key and raw body to hex digest), and the two GET oracles. -/
structure IntakeEnv where
  secretKey : String
  hmacFn : String → String → String
  fetchRun : String → FetchResp
  fetchWorkspace : String → WorkspaceResp

/-- Python str() of an optional string, as an f-string renders it. -/
def pyOptStr : Option String → String
  | none => "None"
  | some s => s

/-- Builds the PATCH call process_request makes: requests.patch with
body.get of the callback url, the bearer token from the event, and the
tfc_body attributes. -/
def mkPatch (body : Event) (st msg : String) : PatchCall :=
  { url := body.task_result_callback_url, token := body.access_token,
    result := { status := st, message := msg } }

/-- Embedding of process_request (src/run_task.py lines 103 to 217). The
HMAC check compares the request header with the hex digest of the raw
body; every later branch issues exactly one PATCH, except the
missing-callback-url branch which returns silently. -/
def process_request (env : IntakeEnv) (body : Event) (body_raw : String)
    (request_hmac : Option String) : ProcOutput :=
  let generated := env.hmacFn env.secretKey body_raw
  if request_hmac ≠ some generated then
    { logs := ["HMACs do not match.",
               "Request: " ++ pyOptStr request_hmac,
               "genearted: " ++ generated],
      patches := [mkPatch body "failed" "Invalid HMAC."],
      queuePushes := [] }
  else if body.task_result_callback_url = none then
    { logs := ["task_result_callback_url not found in the request body."],
      patches := [], queuePushes := [] }
  else if body.stage ≠ some "post_plan" then
    { logs := [],
      patches := [mkPatch body "passed" "Nothing to do. This is not a post_plan phase."],
      queuePushes := [] }
  else
    match body.run_id with
    | none =>
      { logs := ["Run ID not found in the request body."],
        patches := [mkPatch body "failed" "There was no run_id specified in the payload."],
        queuePushes := [] }
    | some run_id =>
      if run_id = "" then
        { logs := ["Run ID not found in the request body."],
          patches := [mkPatch body "failed" "There was no run_id specified in the payload."],
          queuePushes := [] }
      else
        match env.fetchRun run_id with
        | FetchResp.err text =>
          { logs := ["Processing message received from " ++ run_id],
            patches := [mkPatch body "failed" ("Failed to get run details: " ++ text)],
            queuePushes := [] }
        | FetchResp.ok attrs =>
          if attrs.source ≠ "tfe-run-trigger" then
            { logs := ["Processing message received from " ++ run_id],
              patches := [mkPatch body "passed" "Nothing to do. This is not a run triggered run."],
              queuePushes := [] }
          else
            match env.fetchWorkspace attrs.workspaceId with
            | WorkspaceResp.err text =>
              { logs := ["Processing message received from " ++ run_id],
                patches := [mkPatch body "failed" ("Failed to get workspace details: " ++ text)],
                queuePushes := [] }
            | WorkspaceResp.ok autoApply =>
              if autoApply = false then
                { logs := ["Processing message received from " ++ run_id,
                           "The auto-apply attribute is not enabled for this workspace."],
                  patches := [mkPatch body "passed" "Nothing to do. Workspace is not configured for auto-apply"],
                  queuePushes := [] }
              else
                { logs := ["Processing message received from " ++ run_id],
                  patches := [mkPatch body "passed"
                    ("Added " ++ run_id ++ " to the queue to be auto-applied when ready.")],
                  queuePushes := [run_id] }

/-- Record of one spawned process_request worker thread, with the arguments
run_function passes to it. -/
structure WorkerSpawn where
  body : Event
  body_raw : String
  signatureHeader : Option String
deriving DecidableEq

/-- Embedding of run_function (src/run_task.py lines 220 to 239): the HTTP
handler spawns a worker unless the event is the registration probe, and
always returns status 200. -/
def run_function (req : Event) (raw : String) (sig : Option String) :
    Nat × List WorkerSpawn :=
  if req.task_result_enforcement_level ≠ some "test" then
    (200, [{ body := req, body_raw := raw, signatureHeader := sig }])
  else
    (200, [])

/-- Scheduler loop state: the pending queue of run ids (FIFO, head is next
to pop) and prev_run_id. -/
structure SchedState where
  queue : List String
  prev : Option String
deriving DecidableEq

/-- Observable events of one scheduler iteration, in program order. -/
inductive SchedEvent where
  | popped (id : String)
  | slept (seconds : Nat)
  | fetched (id : String)
  | applied (id : String) (code : Nat)
  | requeued (id : String)
deriving DecidableEq

/-- Environment of the scheduler: per-iteration oracles for the GET run
call and the status code of the POST apply call. The iteration index
models that the run state can change between polls. -/
structure SchedEnv where
  fetchRun : Nat → String → FetchResp
  applyRun : Nat → String → Nat

/-- One iteration of the process_queue loop (src/run_task.py lines 53 to
100) at iteration index t: pop the head, sleep 5 seconds when it equals
prev_run_id, set prev_run_id, fetch the run, then drop (fetch error,
planned_and_finished, apply 202, apply unexpected code) or re-enqueue at
the tail (not confirmable, apply 409). An empty queue blocks, modelled as
a no-op. -/
def sched_step (env : SchedEnv) (t : Nat) (s : SchedState) :
    SchedState × List SchedEvent :=
  match s.queue with
  | [] => (s, [])
  | run_id :: rest =>
    let sleeps := if s.prev = some run_id then [SchedEvent.slept 5] else []
    let base := SchedEvent.popped run_id :: (sleeps ++ [SchedEvent.fetched run_id])
    match env.fetchRun t run_id with
    | FetchResp.err _ => (⟨rest, some run_id⟩, base)
    | FetchResp.ok attrs =>
      if attrs.status = "planned_and_finished" then
        (⟨rest, some run_id⟩, base)
      else if attrs.isConfirmable = false then
        (⟨rest ++ [run_id], some run_id⟩, base ++ [SchedEvent.requeued run_id])
      else
        let code := env.applyRun t run_id
        if code = 202 then
          (⟨rest, some run_id⟩, base ++ [SchedEvent.applied run_id code])
        else if code = 409 then
          (⟨rest ++ [run_id], some run_id⟩,
           base ++ [SchedEvent.applied run_id code, SchedEvent.requeued run_id])
        else
          (⟨rest, some run_id⟩, base ++ [SchedEvent.applied run_id code])

/-- Runs n scheduler iterations starting at iteration index t, collecting
the concatenated event trace. -/
def sched_run (env : SchedEnv) : Nat → Nat → SchedState → SchedState × List SchedEvent
  | 0, _, s => (s, [])
  | Nat.succ n, t, s =>
    let step := sched_step env t s
    let rest := sched_run env n (t + 1) step.1
    (rest.1, step.2 ++ rest.2)

/-- Tests whether an event is a successful (202 Accepted) apply call for
run id r. -/
def isOkApply (r : String) : SchedEvent → Bool
  | SchedEvent.applied id code => id == r && code == 202
  | _ => false

/-- Number of successful apply calls for run id r in a trace. -/
def countOkApplies (r : String) (evs : List SchedEvent) : Nat :=
  evs.countP (isOkApply r)

/-- Iteration t is transient for run id r: the fetch succeeds, the run is
not planned_and_finished, and either it is not yet confirmable or the
apply call returns 409 Conflict. -/
def transientAt (env : SchedEnv) (t : Nat) (r : String) : Prop :=
  ∃ attrs, env.fetchRun t r = FetchResp.ok attrs ∧
    attrs.status ≠ "planned_and_finished" ∧
    (attrs.isConfirmable = false ∨ env.applyRun t r = 409)

/-- Iteration t accepts run id r: the fetch succeeds, the run is not
planned_and_finished, it is confirmable, and the apply call returns 202
Accepted. -/
def acceptedAt (env : SchedEnv) (t : Nat) (r : String) : Prop :=
  ∃ attrs, env.fetchRun t r = FetchResp.ok attrs ∧
    attrs.status ≠ "planned_and_finished" ∧
    attrs.isConfirmable = true ∧ env.applyRun t r = 202

/-- The permanent-drop outcomes claim C2 lists: popping the head r may
remove it from the queue for good only when the fetch failed, the run was
planned_and_finished, or the apply call returned 202 Accepted. -/
def dropOnlyOnListed (env : SchedEnv) (t : Nat) (s : SchedState) : Prop :=
  ∀ r rest, s.queue = r :: rest → r ∉ rest →
    r ∉ (sched_step env t s).1.queue →
      (∃ txt, env.fetchRun t r = FetchResp.err txt) ∨
      (∃ attrs, env.fetchRun t r = FetchResp.ok attrs ∧
        (attrs.status = "planned_and_finished" ∨
         (attrs.isConfirmable = true ∧ env.applyRun t r = 202)))

/-- Environment whose digest function returns the constant digest "aabb"
and whose GET oracles fail; used to exhibit intake behaviour on
unauthenticated events. -/
def leakEnv : IntakeEnv :=
  { secretKey := "k", hmacFn := fun _ _ => "aabb",
    fetchRun := fun _ => FetchResp.err "down",
    fetchWorkspace := fun _ => WorkspaceResp.err "down" }

/-- Sample post_plan event with a callback url and a run id. -/
def leakEvent : Event :=
  { access_token := "tok", task_result_callback_url := some "https://cb.example/u",
    stage := some "post_plan", run_id := some "run-1",
    task_result_enforcement_level := none }

/-- Environment in which run-1 fetches as a tfe-run-trigger run in a
workspace with auto-apply enabled. -/
def happyEnv : IntakeEnv :=
  { secretKey := "k", hmacFn := fun _ _ => "aabb",
    fetchRun := fun _ => FetchResp.ok ⟨"planned", false, "tfe-run-trigger", "ws-7"⟩,
    fetchWorkspace := fun _ => WorkspaceResp.ok true }

/-- Sample event whose stage is not post_plan. -/
def prePlanEvent : Event :=
  { access_token := "tok", task_result_callback_url := some "https://cb.example/u",
    stage := some "pre_plan", run_id := some "run-1",
    task_result_enforcement_level := none }

/-- Sample event lacking a task_result_callback_url. -/
def noCbEvent : Event :=
  { access_token := "tok", task_result_callback_url := none,
    stage := some "post_plan", run_id := some "run-1",
    task_result_enforcement_level := none }

/-- C1 counterexample: on an event whose request HMAC does not match, the
failed verdict with message "Invalid HMAC." is indeed PATCHed to the
callback, but the computed digest is leaked: a print statement of
process_request contains the digest as a substring, refuting the
no-digest-in-any-observable-output part of the claim at this concrete
input. -/
theorem C1_counterexample :
    (process_request leakEnv leakEvent "payload" (some "bad")).patches =
      [{ url := some "https://cb.example/u", token := "tok",
         result := { status := "failed", message := "Invalid HMAC." } }] ∧
    ∃ l ∈ (process_request leakEnv leakEvent "payload" (some "bad")).logs,
      List.IsInfix ("aabb".data) l.data := by
  constructor
  · rfl
  · exact ⟨"genearted: aabb", by decide, by decide⟩

/-- C1 amended: on every event whose request HMAC does not match the keyed
digest of the raw body, process_request issues exactly one PATCH carrying
the failed verdict with the constant message "Invalid HMAC." (so the
digest is not part of the callback) and pushes nothing onto the queue, but
it prints the computed digest to the process log. -/
theorem C1_amended (env : IntakeEnv) (body : Event) (body_raw : String)
    (request_hmac : Option String)
    (hne : request_hmac ≠ some (env.hmacFn env.secretKey body_raw)) :
    (process_request env body body_raw request_hmac).patches =
      [mkPatch body "failed" "Invalid HMAC."] ∧
    (process_request env body body_raw request_hmac).queuePushes = [] ∧
    ("genearted: " ++ env.hmacFn env.secretKey body_raw) ∈
      (process_request env body body_raw request_hmac).logs := by
  simp [process_request, hne]

/-- Witness for C1_amended at a concrete mismatching request. -/
theorem C1_amended_witness :
    (process_request leakEnv leakEvent "payload" (some "nope")).patches =
      [mkPatch leakEvent "failed" "Invalid HMAC."] ∧
    (process_request leakEnv leakEvent "payload" (some "nope")).queuePushes = [] ∧
    ("genearted: " ++ leakEnv.hmacFn leakEnv.secretKey "payload") ∈
      (process_request leakEnv leakEvent "payload" (some "nope")).logs :=
  C1_amended leakEnv leakEvent "payload" (some "nope") (by decide)

/-- C5: for every authenticated event with a callback target, stage
post_plan and a run id whose fetched run has source tfe-run-trigger and
whose workspace has auto-apply enabled, process_request pushes exactly
that one run id onto the queue and PATCHes the passed verdict with the
queued-for-auto-apply message. -/
theorem C5_queued (env : IntakeEnv) (body : Event) (body_raw : String)
    (request_hmac : Option String) (u rid : String) (attrs : RunAttrs)
    (hauth : request_hmac = some (env.hmacFn env.secretKey body_raw))
    (hcb : body.task_result_callback_url = some u)
    (hstage : body.stage = some "post_plan")
    (hrid : body.run_id = some rid) (hrid0 : rid ≠ "")
    (hfetch : env.fetchRun rid = FetchResp.ok attrs)
    (hsrc : attrs.source = "tfe-run-trigger")
    (hws : env.fetchWorkspace attrs.workspaceId = WorkspaceResp.ok true) :
    (process_request env body body_raw request_hmac).queuePushes = [rid] ∧
    (process_request env body body_raw request_hmac).patches =
      [{ url := some u, token := body.access_token,
         result := { status := "passed",
                     message := "Added " ++ rid ++ " to the queue to be auto-applied when ready." } }] := by
  simp [process_request, hauth, hcb, hstage, hrid, hrid0, hfetch, hsrc, hws, mkPatch]

/-- Witness for C5_queued on a concrete eligible event. -/
theorem C5_queued_witness :
    (process_request happyEnv leakEvent "payload" (some "aabb")).queuePushes = ["run-1"] ∧
    (process_request happyEnv leakEvent "payload" (some "aabb")).patches =
      [{ url := some "https://cb.example/u", token := "tok",
         result := { status := "passed",
                     message := "Added " ++ "run-1" ++ " to the queue to be auto-applied when ready." } }] :=
  C5_queued happyEnv leakEvent "payload" (some "aabb") "https://cb.example/u" "run-1"
    ⟨"planned", false, "tfe-run-trigger", "ws-7"⟩ rfl rfl rfl rfl (by decide) rfl rfl rfl

/-- C6: for every authenticated event with a callback target whose stage
is not post_plan, process_request PATCHes the passed verdict with the
not-a-post_plan-phase message and pushes nothing onto the queue. -/
theorem C6_not_post_plan (env : IntakeEnv) (body : Event) (body_raw : String)
    (request_hmac : Option String) (u : String)
    (hauth : request_hmac = some (env.hmacFn env.secretKey body_raw))
    (hcb : body.task_result_callback_url = some u)
    (hstage : body.stage ≠ some "post_plan") :
    (process_request env body body_raw request_hmac).patches =
      [{ url := some u, token := body.access_token,
         result := { status := "passed",
                     message := "Nothing to do. This is not a post_plan phase." } }] ∧
    (process_request env body body_raw request_hmac).queuePushes = [] := by
  simp [process_request, hauth, hcb, hstage, mkPatch]

/-- Witness for C6_not_post_plan on a concrete pre_plan event. -/
theorem C6_not_post_plan_witness :
    (process_request happyEnv prePlanEvent "payload" (some "aabb")).patches =
      [{ url := some "https://cb.example/u", token := "tok",
         result := { status := "passed",
                     message := "Nothing to do. This is not a post_plan phase." } }] ∧
    (process_request happyEnv prePlanEvent "payload" (some "aabb")).queuePushes = [] :=
  C6_not_post_plan happyEnv prePlanEvent "payload" (some "aabb") "https://cb.example/u"
    rfl rfl (by decide)

/-- C9: for every event whose request HMAC does not match, process_request
issues its failure PATCH with the url taken directly from the possibly
absent task_result_callback_url field, with no presence check: when the
field is absent the PATCH target is the null url. -/
theorem C9_patch_null_url (env : IntakeEnv) (body : Event) (body_raw : String)
    (request_hmac : Option String)
    (hne : request_hmac ≠ some (env.hmacFn env.secretKey body_raw)) :
    (process_request env body body_raw request_hmac).patches =
      [{ url := body.task_result_callback_url, token := body.access_token,
         result := { status := "failed", message := "Invalid HMAC." } }] := by
  simp [process_request, hne, mkPatch]

/-- Witness for C9_patch_null_url: an unauthenticated event lacking a
callback target triggers a PATCH whose target url is none. -/
theorem C9_patch_null_url_witness :
    (process_request leakEnv noCbEvent "payload" (some "bad")).patches =
      [{ url := none, token := "tok",
         result := { status := "failed", message := "Invalid HMAC." } }] :=
  C9_patch_null_url leakEnv noCbEvent "payload" (some "bad") (by decide)

/-- Unfolding lemma for one iteration of sched_run. -/
theorem sched_run_succ (env : SchedEnv) (n t : Nat) (s : SchedState) :
    sched_run env (n + 1) t s =
      ((sched_run env n (t + 1) (sched_step env t s).1).1,
       (sched_step env t s).2 ++ (sched_run env n (t + 1) (sched_step env t s).1).2) := rfl

/-- The scheduler blocks on an empty queue: iterating from an empty queue
changes nothing and emits no events. -/
theorem sched_run_nil (env : SchedEnv) (n : Nat) :
    ∀ (t : Nat) (p : Option String), sched_run env n t ⟨[], p⟩ = (⟨[], p⟩, []) := by
  induction n with
  | zero => intro t p; rfl
  | succ n ih => intro t p; simp [sched_run, sched_step, ih]

/-- Counting successful applies distributes over trace concatenation. -/
theorem countOk_append (r : String) (l1 l2 : List SchedEvent) :
    countOkApplies r (l1 ++ l2) = countOkApplies r l1 + countOkApplies r l2 :=
  List.countP_append _ _ _

/-- A transient iteration on the singleton queue keeps the run id queued
and performs no successful apply. -/
theorem countOk_step_transient (env : SchedEnv) (t : Nat) (r : String) (p : Option String)
    (h : transientAt env t r) :
    (sched_step env t ⟨[r], p⟩).1 = ⟨[r], some r⟩ ∧
    countOkApplies r (sched_step env t ⟨[r], p⟩).2 = 0 := by
  obtain ⟨attrs, hf, hst, hor⟩ := h
  cases hc0 : attrs.isConfirmable with
  | false =>
    have hstep : sched_step env t ⟨[r], p⟩ =
        (⟨[r], some r⟩,
         (SchedEvent.popped r ::
            ((if p = some r then [SchedEvent.slept 5] else []) ++ [SchedEvent.fetched r])) ++
           [SchedEvent.requeued r]) := by
      simp [sched_step, hf, hst, hc0]
    rw [hstep]
    refine ⟨rfl, ?_⟩
    by_cases hp : p = some r <;>
      simp [hp, countOkApplies, List.countP_cons, List.countP_append, isOkApply]
  | true =>
    rcases hor with hc | h409
    · rw [hc0] at hc; cases hc
    · have hstep : sched_step env t ⟨[r], p⟩ =
          (⟨[r], some r⟩,
           (SchedEvent.popped r ::
              ((if p = some r then [SchedEvent.slept 5] else []) ++ [SchedEvent.fetched r])) ++
             [SchedEvent.applied r 409, SchedEvent.requeued r]) := by
        simp [sched_step, hf, hst, hc0, h409]
      rw [hstep]
      refine ⟨rfl, ?_⟩
      by_cases hp : p = some r <;>
        simp [hp, countOkApplies, List.countP_cons, List.countP_append, isOkApply]

/-- An accepting iteration on the singleton queue empties the queue and
performs exactly one successful apply. -/
theorem countOk_step_accept (env : SchedEnv) (t : Nat) (r : String) (p : Option String)
    (h : acceptedAt env t r) :
    (sched_step env t ⟨[r], p⟩).1 = ⟨[], some r⟩ ∧
    countOkApplies r (sched_step env t ⟨[r], p⟩).2 = 1 := by
  obtain ⟨attrs, hf, hst, hc, h202⟩ := h
  have hstep : sched_step env t ⟨[r], p⟩ =
      (⟨[], some r⟩,
       (SchedEvent.popped r ::
          ((if p = some r then [SchedEvent.slept 5] else []) ++ [SchedEvent.fetched r])) ++
         [SchedEvent.applied r 202]) := by
    simp [sched_step, hf, hst, hc, h202]
  rw [hstep]
  refine ⟨rfl, ?_⟩
  by_cases hp : p = some r <;>
    simp [hp, countOkApplies, List.countP_cons, List.countP_append, isOkApply]

/-- Running the scheduler on the singleton queue holding r, with n
transient iterations followed by an accepting one, ends with an empty
queue and exactly one successful apply in the whole trace, for any number
k of further iterations. -/
theorem run_single_accept (env : SchedEnv) (r : String) :
    ∀ (n t : Nat) (p : Option String) (k : Nat),
      (∀ i, i < n → transientAt env (t + i) r) →
      acceptedAt env (t + n) r →
      (sched_run env (n + k + 1) t ⟨[r], p⟩).1.queue = [] ∧
      countOkApplies r (sched_run env (n + k + 1) t ⟨[r], p⟩).2 = 1 := by
  intro n
  induction n with
  | zero =>
    intro t p k htrans hacc
    have hacc0 : acceptedAt env t r := by
      have := hacc; rwa [Nat.add_zero] at this
    obtain ⟨h1, h2⟩ := countOk_step_accept env t r p hacc0
    rw [show (0 : Nat) + k + 1 = (0 + k) + 1 from rfl, sched_run_succ, h1, sched_run_nil]
    refine ⟨rfl, ?_⟩
    rw [List.append_nil]
    exact h2
  | succ n ih =>
    intro t p k htrans hacc
    have htr0 : transientAt env t r := by
      have := htrans 0 (Nat.succ_pos n); rwa [Nat.add_zero] at this
    obtain ⟨h1, h2⟩ := countOk_step_transient env t r p htr0
    rw [show (n + 1) + k + 1 = ((n + 1) + k) + 1 from rfl, sched_run_succ, h1]
    have harith : (n + 1) + k = n + k + 1 := by omega
    rw [harith]
    have htrans' : ∀ i, i < n → transientAt env (t + 1 + i) r := by
      intro i hi
      have := htrans (i + 1) (by omega)
      rwa [show t + (i + 1) = t + 1 + i from by omega] at this
    have hacc' : acceptedAt env (t + 1 + n) r := by
      rwa [show t + (n + 1) = t + 1 + n from by omega] at hacc
    obtain ⟨hq, hcnt⟩ := ih (t + 1) (some r) k htrans' hacc'
    exact ⟨hq, by rw [countOk_append, h2, hcnt]⟩

/-- Environment in which every fetch reports a confirmable planned run and
every apply call returns the unexpected status 500. -/
def hardFailEnv : SchedEnv :=
  { fetchRun := fun _ _ => FetchResp.ok ⟨"planned", true, "tfe-run-trigger", "ws-7"⟩,
    applyRun := fun _ _ => 500 }

/-- Environment in which every fetch reports a planned_and_finished run. -/
def finishedEnv : SchedEnv :=
  { fetchRun := fun _ _ => FetchResp.ok ⟨"planned_and_finished", false, "tfe-run-trigger", "ws-7"⟩,
    applyRun := fun _ _ => 202 }

/-- Environment in which the run becomes confirmable from iteration 1 on
and the apply call is accepted. -/
def eventualEnv : SchedEnv :=
  { fetchRun := fun t _ => FetchResp.ok ⟨"planned", decide (1 ≤ t), "tfe-run-trigger", "ws-7"⟩,
    applyRun := fun _ _ => 202 }

/-- C2 counterexample: in an iteration whose apply call returns the
unexpected status 500 (neither a fetch failure, nor planned_and_finished,
nor 202 Accepted), the scheduler still removes the popped run id from the
queue permanently instead of re-enqueuing it, refuting the claim that a
permanent drop happens only on the three listed outcomes. -/
theorem C2_counterexample :
    ¬ dropOnlyOnListed hardFailEnv 0 ⟨["run-1"], none⟩ := by
  intro h
  have hd := h "run-1" [] rfl (List.not_mem_nil _) (by decide)
  rcases hd with ⟨txt, htxt⟩ | ⟨attrs, hok, hcase⟩
  · simp [hardFailEnv] at htxt
  · simp only [hardFailEnv] at hok
    have ha : attrs = ⟨"planned", true, "tfe-run-trigger", "ws-7"⟩ :=
      (FetchResp.ok.injEq _ _).mp hok.symm
    subst ha
    rcases hcase with hst | ⟨_, h202⟩
    · exact absurd hst (by decide)
    · simp [hardFailEnv] at h202

/-- C2 amended: a popped run id is removed from the queue permanently
exactly when the fetch fails, the run is planned_and_finished, or the run
is confirmable and the apply call returns anything other than 409
(202 Accepted or a hard apply failure); in the remaining outcomes (not
confirmable, or apply 409 Conflict) it is re-enqueued. -/
theorem C2_amended (env : SchedEnv) (t : Nat) (s : SchedState) (r : String)
    (rest : List String) (hq : s.queue = r :: rest) (hnd : r ∉ rest) :
    (r ∉ (sched_step env t s).1.queue ↔
      (∃ txt, env.fetchRun t r = FetchResp.err txt) ∨
      (∃ attrs, env.fetchRun t r = FetchResp.ok attrs ∧
        (attrs.status = "planned_and_finished" ∨
         (attrs.isConfirmable = true ∧ env.applyRun t r ≠ 409)))) := by
  cases hf : env.fetchRun t r with
  | err txt =>
    have hstep : (sched_step env t s).1.queue = rest := by
      simp [sched_step, hq, hf]
    rw [hstep]
    exact iff_of_true hnd (Or.inl ⟨txt, rfl⟩)
  | ok attrs =>
    by_cases hst : attrs.status = "planned_and_finished"
    · have hstep : (sched_step env t s).1.queue = rest := by
        simp [sched_step, hq, hf, hst]
      rw [hstep]
      exact iff_of_true hnd (Or.inr ⟨attrs, rfl, Or.inl hst⟩)
    · cases hc : attrs.isConfirmable with
      | false =>
        have hstep : (sched_step env t s).1.queue = rest ++ [r] := by
          simp [sched_step, hq, hf, hst, hc]
        rw [hstep]
        refine iff_of_false (fun hmem => hmem (by simp)) ?_
        rintro (⟨txt, htxt⟩ | ⟨attrs', hok', hst' | ⟨hc', _⟩⟩)
        · cases htxt
        · cases (FetchResp.ok.injEq _ _).mp hok'
          exact hst hst'
        · cases (FetchResp.ok.injEq _ _).mp hok'
          rw [hc] at hc'; cases hc'
      | true =>
        by_cases h409 : env.applyRun t r = 409
        · have hstep : (sched_step env t s).1.queue = rest ++ [r] := by
            simp [sched_step, hq, hf, hst, hc, h409]
          rw [hstep]
          refine iff_of_false (fun hmem => hmem (by simp)) ?_
          rintro (⟨txt, htxt⟩ | ⟨attrs', hok', hst' | ⟨_, hne409⟩⟩)
          · cases htxt
          · cases (FetchResp.ok.injEq _ _).mp hok'
            exact hst hst'
          · exact hne409 h409
        · have hstep : (sched_step env t s).1.queue = rest := by
            by_cases h202 : env.applyRun t r = 202 <;>
              simp [sched_step, hq, hf, hst, hc, h202, h409]
          rw [hstep]
          exact iff_of_true hnd (Or.inr ⟨attrs, rfl, Or.inr ⟨hc, h409⟩⟩)

/-- Witness for C2_amended at a concrete hard apply failure. -/
theorem C2_amended_witness :
    ("run-1" ∉ (sched_step hardFailEnv 0 ⟨["run-1"], none⟩).1.queue ↔
      (∃ txt, hardFailEnv.fetchRun 0 "run-1" = FetchResp.err txt) ∨
      (∃ attrs, hardFailEnv.fetchRun 0 "run-1" = FetchResp.ok attrs ∧
        (attrs.status = "planned_and_finished" ∨
         (attrs.isConfirmable = true ∧ hardFailEnv.applyRun 0 "run-1" ≠ 409)))) :=
  C2_amended hardFailEnv 0 ⟨["run-1"], none⟩ "run-1" [] rfl (List.not_mem_nil _)

/-- C3: on the queue holding a single run id r, (a) an apply 409 Conflict
re-enqueues r at the tail of the remaining queue, and (b) if the first n
iterations are transient (not confirmable or apply Conflict) and iteration
n accepts, then over n transient iterations, the accepting iteration and
any k further iterations the trace contains exactly one successful
(202 Accepted) apply call for r and r is gone from the queue for good. -/
theorem C3_exactly_once (env : SchedEnv) (r : String) (p : Option String) (n k : Nat)
    (htrans : ∀ i, i < n → transientAt env i r)
    (hacc : acceptedAt env n r) :
    (∀ t s rest attrs, s.queue = r :: rest →
        env.fetchRun t r = FetchResp.ok attrs →
        attrs.status ≠ "planned_and_finished" →
        attrs.isConfirmable = true →
        env.applyRun t r = 409 →
        (sched_step env t s).1.queue = rest ++ [r]) ∧
    countOkApplies r (sched_run env (n + k + 1) 0 ⟨[r], p⟩).2 = 1 ∧
    (sched_run env (n + k + 1) 0 ⟨[r], p⟩).1.queue = [] := by
  have h := run_single_accept env r n 0 p k
    (fun i hi => by rw [Nat.zero_add]; exact htrans i hi)
    (by rw [Nat.zero_add]; exact hacc)
  refine ⟨?_, h.2, h.1⟩
  intro t s rest attrs hq hf hst hc h409
  simp [sched_step, hq, hf, hst, hc, h409]

/-- Witness for C3_exactly_once: one not-yet-confirmable iteration, then
an accepted apply, then one idle iteration. -/
theorem C3_exactly_once_witness :
    countOkApplies "run-1" (sched_run eventualEnv 3 0 ⟨["run-1"], none⟩).2 = 1 ∧
    (sched_run eventualEnv 3 0 ⟨["run-1"], none⟩).1.queue = [] := by
  have h := C3_exactly_once eventualEnv "run-1" none 1 1
    (fun i hi => by
      have hi0 : i = 0 := by omega
      subst hi0
      exact ⟨⟨"planned", false, "tfe-run-trigger", "ws-7"⟩, rfl, by decide, Or.inl rfl⟩)
    ⟨⟨"planned", true, "tfe-run-trigger", "ws-7"⟩, rfl, by decide, rfl, rfl⟩
  exact ⟨h.2.1, h.2.2⟩

/-- Structure of the events of one scheduler iteration: a pop, then the
sleep exactly when the popped id equals prev_run_id, then the fetch, then
a tail that contains no sleep event. -/
theorem sched_step_events (env : SchedEnv) (t : Nat) (s : SchedState) (r : String)
    (rest : List String) (hq : s.queue = r :: rest) :
    ∃ tail, (sched_step env t s).2 =
      SchedEvent.popped r ::
        ((if s.prev = some r then [SchedEvent.slept 5] else []) ++
         (SchedEvent.fetched r :: tail)) ∧
      ∀ d, SchedEvent.slept d ∉ tail := by
  cases hf : env.fetchRun t r with
  | err txt =>
    exact ⟨[], by simp [sched_step, hq, hf], by intro d; simp⟩
  | ok attrs =>
    by_cases hst : attrs.status = "planned_and_finished"
    · exact ⟨[], by simp [sched_step, hq, hf, hst], by intro d; simp⟩
    · cases hc : attrs.isConfirmable with
      | false =>
        exact ⟨[SchedEvent.requeued r], by simp [sched_step, hq, hf, hst, hc], by intro d; simp⟩
      | true =>
        by_cases h202 : env.applyRun t r = 202
        · exact ⟨[SchedEvent.applied r 202],
            by simp [sched_step, hq, hf, hst, hc, h202], by intro d; simp⟩
        · by_cases h409 : env.applyRun t r = 409
          · exact ⟨[SchedEvent.applied r 409, SchedEvent.requeued r],
              by simp [sched_step, hq, hf, hst, hc, h202, h409], by intro d; simp⟩
          · exact ⟨[SchedEvent.applied r (env.applyRun t r)],
              by simp [sched_step, hq, hf, hst, hc, h202, h409], by intro d; simp⟩

/-- C4: when the popped run id equals the one handled in the previous
iteration, the iteration sleeps 5 seconds after the pop and before the
fetch; when it differs, the iteration contains no sleep at all. -/
theorem C4_backoff (env : SchedEnv) (t : Nat) (s : SchedState) (r : String)
    (rest : List String) (hq : s.queue = r :: rest) :
    (s.prev = some r →
      ∃ tail, (sched_step env t s).2 =
        SchedEvent.popped r :: SchedEvent.slept 5 :: SchedEvent.fetched r :: tail) ∧
    (s.prev ≠ some r →
      (∃ tail, (sched_step env t s).2 =
        SchedEvent.popped r :: SchedEvent.fetched r :: tail) ∧
      ∀ d, SchedEvent.slept d ∉ (sched_step env t s).2) := by
  obtain ⟨tail, hev, htail⟩ := sched_step_events env t s r rest hq
  constructor
  · intro hp
    exact ⟨tail, by rw [hev, if_pos hp]; rfl⟩
  · intro hp
    constructor
    · exact ⟨tail, by rw [hev, if_neg hp]; rfl⟩
    · intro d
      rw [hev, if_neg hp]
      simp only [List.nil_append, List.mem_cons]
      rintro (h | h | h)
      · cases h
      · cases h
      · exact htail d h

/-- Witness for C4_backoff: popping run-1 twice in a row sleeps before the
second fetch; popping it with a different previous id does not sleep. -/
theorem C4_backoff_witness :
    SchedEvent.slept 5 ∈ (sched_step finishedEnv 0 ⟨["run-1"], some "run-1"⟩).2 ∧
    SchedEvent.slept 5 ∉ (sched_step finishedEnv 0 ⟨["run-1"], none⟩).2 := by
  constructor
  · obtain ⟨tail, ht⟩ :=
      (C4_backoff finishedEnv 0 ⟨["run-1"], some "run-1"⟩ "run-1" [] rfl).1 rfl
    rw [ht]; simp
  · exact ((C4_backoff finishedEnv 0 ⟨["run-1"], none⟩ "run-1" [] rfl).2 (by decide)).2 5

/-- C7: a fetched run whose status is planned_and_finished is dropped from
the queue at once: the remaining queue is exactly the rest, no apply call
is made for it and it is not re-enqueued. -/
theorem C7_planned_and_finished (env : SchedEnv) (t : Nat) (s : SchedState)
    (r : String) (rest : List String) (attrs : RunAttrs)
    (hq : s.queue = r :: rest)
    (hf : env.fetchRun t r = FetchResp.ok attrs)
    (hst : attrs.status = "planned_and_finished") :
    (sched_step env t s).1.queue = rest ∧
    (∀ c, SchedEvent.applied r c ∉ (sched_step env t s).2) ∧
    SchedEvent.requeued r ∉ (sched_step env t s).2 := by
  have hev : sched_step env t s =
      (⟨rest, some r⟩,
       SchedEvent.popped r ::
         ((if s.prev = some r then [SchedEvent.slept 5] else []) ++
          [SchedEvent.fetched r])) := by
    simp [sched_step, hq, hf, hst]
  rw [hev]
  refine ⟨rfl, ?_, ?_⟩
  · intro c
    by_cases hp : s.prev = some r <;> simp [hp]
  · by_cases hp : s.prev = some r <;> simp [hp]

/-- Witness for C7_planned_and_finished on a concrete finished run. -/
theorem C7_planned_and_finished_witness :
    (sched_step finishedEnv 0 ⟨["run-1"], none⟩).1.queue = [] ∧
    (∀ c, SchedEvent.applied "run-1" c ∉ (sched_step finishedEnv 0 ⟨["run-1"], none⟩).2) ∧
    SchedEvent.requeued "run-1" ∉ (sched_step finishedEnv 0 ⟨["run-1"], none⟩).2 :=
  C7_planned_and_finished finishedEnv 0 ⟨["run-1"], none⟩ "run-1" []
    ⟨"planned_and_finished", false, "tfe-run-trigger", "ws-7"⟩ rfl rfl rfl

/-- Sample registration probe event, with task_result_enforcement_level
set to test. -/
def probeEvent : Event :=
  { access_token := "", task_result_callback_url := none,
    stage := none, run_id := none,
    task_result_enforcement_level := some "test" }

/-- C8: on an event whose task_result_enforcement_level equals "test", the
HTTP handler returns 200 and spawns no worker. -/
theorem C8_probe (req : Event) (raw : String) (sig : Option String)
    (h : req.task_result_enforcement_level = some "test") :
    run_function req raw sig = (200, []) := by
  simp [run_function, h]

/-- Witness for C8_probe on the concrete probe event. -/
theorem C8_probe_witness : run_function probeEvent "payload" none = (200, []) :=
  C8_probe probeEvent "payload" none rfl

/-- C10: on an event whose task_result_enforcement_level is absent or is
any value other than the exact string "test", the HTTP handler spawns
exactly one worker with the event, the raw body and the signature header,
and still returns 200. -/
theorem C10_spawn (req : Event) (raw : String) (sig : Option String)
    (h : req.task_result_enforcement_level = none ∨
         ∃ v, req.task_result_enforcement_level = some v ∧ v ≠ "test") :
    run_function req raw sig =
      (200, [{ body := req, body_raw := raw, signatureHeader := sig }]) := by
  rcases h with h | ⟨v, hv, hne⟩
  · simp [run_function, h]
  · simp [run_function, hv, hne]

/-- Witness for C10_spawn on a concrete event with no enforcement level. -/
theorem C10_spawn_witness :
    run_function leakEvent "payload" (some "sig") =
      (200, [{ body := leakEvent, body_raw := "payload", signatureHeader := some "sig" }]) :=
  C10_spawn leakEvent "payload" (some "sig") (Or.inl rfl)

end RunTaskAutoApply
